import Mathlib

/-!
Verification development for the `tim` terminal image viewer
(`src/image.rs`, `src/main.rs`).

Modelling conventions:
* Machine integers (`u8`, `u16`, `u32`, `usize`) are modelled as `Nat`;
  every narrowing `as` cast in the source is rendered as an explicit
  `% 2^w`.
* `f32` channel values are modelled by `F32`: exact rationals together
  with NaN and the two infinities, with IEEE-754 behaviour of
  multiplication and comparison on the special values and exact rational
  arithmetic on finite values.
* The `zoom` factor, kept as `f32` by the source, is modelled as an exact
  rational; a Rust `as usize` cast of a non-negative float is `⌊·⌋.toNat`
  (which also matches the saturating-to-zero behaviour on negatives).
* `Vec` indexing (`self.pixels[pos]`) is modelled by `List.getD`; the
  in-bounds claim is proven separately.
-/

/-- `Pixel` from `image.rs`: an 8-bit RGB triple.  `#[derive(Default)]`
gives the all-zero pixel, matching `deriving Inhabited` here. -/
structure Pixel where
  r : Nat
  g : Nat
  b : Nat
  deriving Repr, DecidableEq, Inhabited

/-- `fn apply_alpha16(value: u16, alpha: u16) -> u16`:
`((value as u32) * (alpha as u32) / 65535) as u16`. -/
def apply_alpha16 (value alpha : Nat) : Nat :=
  value * alpha / 65535 % 65536

/-- `fn apply_alpha(value: u8, alpha: u8) -> u8`:
`((value as u32) * (alpha as u32) / 255) as u8`. -/
def apply_alpha (value alpha : Nat) : Nat :=
  value * alpha / 255 % 256

/-- `fn u16_to_u8(value: u16) -> u8`: `(value >> 8) as u8`. -/
def u16_to_u8 (value : Nat) : Nat :=
  (value >>> 8) % 256

/-- Model of an `f32` value: NaN, the two infinities, or an exact finite
value represented as a rational. -/
inductive F32 where
  | nan
  | posInf
  | negInf
  | val (q : ℚ)
  deriving Repr, DecidableEq

/-- IEEE-754 multiplication on the `F32` model; products of finite values
are exact rationals. -/
def F32.mul : F32 → F32 → F32
  | .nan, _ => .nan
  | _, .nan => .nan
  | .posInf, .posInf => .posInf
  | .posInf, .negInf => .negInf
  | .negInf, .posInf => .negInf
  | .negInf, .negInf => .posInf
  | .posInf, .val q => if 0 < q then .posInf else if q < 0 then .negInf else .nan
  | .negInf, .val q => if 0 < q then .negInf else if q < 0 then .posInf else .nan
  | .val q, .posInf => if 0 < q then .posInf else if q < 0 then .negInf else .nan
  | .val q, .negInf => if 0 < q then .negInf else if q < 0 then .posInf else .nan
  | .val a, .val b => .val (a * b)

/-- IEEE-754 `<` on the `F32` model: any comparison with NaN is false. -/
def F32.lt : F32 → F32 → Bool
  | .nan, _ => false
  | _, .nan => false
  | .negInf, .negInf => false
  | .negInf, _ => true
  | _, .negInf => false
  | .posInf, _ => false
  | .val _, .posInf => true
  | .val a, .val b => decide (a < b)

/-- Rust `as u8` on an `f32`: truncate toward zero, saturating, NaN to 0. -/
def F32.toU8 : F32 → Nat
  | .nan => 0
  | .negInf => 0
  | .posInf => 255
  | .val q => if q < 0 then 0 else if 255 < q then 255 else (⌊q⌋).toNat

/-- `fn f32_to_u8(value: f32) -> u8` from `image.rs`. -/
def f32_to_u8 (value : F32) : Nat :=
  let value := value.mul (.val 255)
  if value.lt (.val 0) then 0
  else if (F32.val 255).lt value then 255
  else value.toU8

/-- A decoded source raster: dimensions plus the row-major pixel list, as
delivered by the `image` crate buffers. -/
structure Raster (α : Type) where
  width : Nat
  height : Nat
  pixels : List α

/-- The decoded raster's own invariant: the buffer holds exactly
`width * height` pixels. -/
def Raster.wf {α : Type} (r : Raster α) : Prop :=
  r.pixels.length = r.width * r.height

/-- `struct Image` from `image.rs`: the canonical 8-bit RGB buffer. -/
structure Image where
  pixels : List Pixel
  width : Nat
  height : Nat
  deriving Repr, DecidableEq

/-- `Image::new_gray8`. -/
def Image.new_gray8 (im : Raster Nat) : Image :=
  { pixels := im.pixels.map (fun v => { r := v, g := v, b := v }),
    width := im.width, height := im.height }

/-- `Image::new_grayalpha8`: the pair is `(gray, alpha)`. -/
def Image.new_grayalpha8 (im : Raster (Nat × Nat)) : Image :=
  { pixels := im.pixels.map (fun p =>
      let val := apply_alpha p.1 p.2
      { r := val, g := val, b := val }),
    width := im.width, height := im.height }

/-- `Image::new_rgb8`. -/
def Image.new_rgb8 (im : Raster (Nat × Nat × Nat)) : Image :=
  { pixels := im.pixels.map (fun p => { r := p.1, g := p.2.1, b := p.2.2 }),
    width := im.width, height := im.height }

/-- `Image::new_rgba8`: the tuple is `(r, g, b, alpha)`. -/
def Image.new_rgba8 (im : Raster (Nat × Nat × Nat × Nat)) : Image :=
  { pixels := im.pixels.map (fun p =>
      { r := apply_alpha p.1 p.2.2.2,
        g := apply_alpha p.2.1 p.2.2.2,
        b := apply_alpha p.2.2.1 p.2.2.2 }),
    width := im.width, height := im.height }

/-- `Image::new_gray16`. -/
def Image.new_gray16 (im : Raster Nat) : Image :=
  { pixels := im.pixels.map (fun v =>
      let val := u16_to_u8 v
      { r := val, g := val, b := val }),
    width := im.width, height := im.height }

/-- `Image::new_grayalpha16`. -/
def Image.new_grayalpha16 (im : Raster (Nat × Nat)) : Image :=
  { pixels := im.pixels.map (fun p =>
      let val := u16_to_u8 (apply_alpha16 p.1 p.2)
      { r := val, g := val, b := val }),
    width := im.width, height := im.height }

/-- `Image::new_rgb16`. -/
def Image.new_rgb16 (im : Raster (Nat × Nat × Nat)) : Image :=
  { pixels := im.pixels.map (fun p =>
      { r := u16_to_u8 p.1, g := u16_to_u8 p.2.1, b := u16_to_u8 p.2.2 }),
    width := im.width, height := im.height }

/-- `Image::new_rgba16`. -/
def Image.new_rgba16 (im : Raster (Nat × Nat × Nat × Nat)) : Image :=
  { pixels := im.pixels.map (fun p =>
      { r := u16_to_u8 (apply_alpha16 p.1 p.2.2.2),
        g := u16_to_u8 (apply_alpha16 p.2.1 p.2.2.2),
        b := u16_to_u8 (apply_alpha16 p.2.2.1 p.2.2.2) }),
    width := im.width, height := im.height }

/-- `Image::new_rgb32f`. -/
def Image.new_rgb32f (im : Raster (F32 × F32 × F32)) : Image :=
  { pixels := im.pixels.map (fun p =>
      { r := f32_to_u8 p.1, g := f32_to_u8 p.2.1, b := f32_to_u8 p.2.2 }),
    width := im.width, height := im.height }

/-- `Image::new_rgba32f`: each colour channel is multiplied by the alpha
channel before conversion. -/
def Image.new_rgba32f (im : Raster (F32 × F32 × F32 × F32)) : Image :=
  { pixels := im.pixels.map (fun p =>
      { r := f32_to_u8 (p.1.mul p.2.2.2),
        g := f32_to_u8 (p.2.1.mul p.2.2.2),
        b := f32_to_u8 (p.2.2.1.mul p.2.2.2) }),
    width := im.width, height := im.height }

/-- The ten `image::DynamicImage` variants handled by `Image::new`
(the source's catch-all arm is `todo!()` and is outside the supported
encodings). -/
inductive DynamicImage where
  | ImageLuma8 (im : Raster Nat)
  | ImageLumaA8 (im : Raster (Nat × Nat))
  | ImageRgb8 (im : Raster (Nat × Nat × Nat))
  | ImageRgba8 (im : Raster (Nat × Nat × Nat × Nat))
  | ImageLuma16 (im : Raster Nat)
  | ImageLumaA16 (im : Raster (Nat × Nat))
  | ImageRgb16 (im : Raster (Nat × Nat × Nat))
  | ImageRgba16 (im : Raster (Nat × Nat × Nat × Nat))
  | ImageRgb32F (im : Raster (F32 × F32 × F32))
  | ImageRgba32F (im : Raster (F32 × F32 × F32 × F32))

/-- Well-formedness of a decoded raster, per variant. -/
def DynamicImage.wf : DynamicImage → Prop
  | .ImageLuma8 im => im.wf
  | .ImageLumaA8 im => im.wf
  | .ImageRgb8 im => im.wf
  | .ImageRgba8 im => im.wf
  | .ImageLuma16 im => im.wf
  | .ImageLumaA16 im => im.wf
  | .ImageRgb16 im => im.wf
  | .ImageRgba16 im => im.wf
  | .ImageRgb32F im => im.wf
  | .ImageRgba32F im => im.wf

/-- `Image::new`: dispatch over the decoded raster encoding. -/
def Image.new : DynamicImage → Image
  | .ImageLuma8 im => Image.new_gray8 im
  | .ImageLumaA8 im => Image.new_grayalpha8 im
  | .ImageRgb8 im => Image.new_rgb8 im
  | .ImageRgba8 im => Image.new_rgba8 im
  | .ImageLuma16 im => Image.new_gray16 im
  | .ImageLumaA16 im => Image.new_grayalpha16 im
  | .ImageRgb16 im => Image.new_rgb16 im
  | .ImageRgba16 im => Image.new_rgba16 im
  | .ImageRgb32F im => Image.new_rgb32f im
  | .ImageRgba32F im => Image.new_rgba32f im

/-- `Image::size`: `((width as f32 * zoom) as usize, (height as f32 * zoom) as usize)`. -/
def Image.size (im : Image) (zoom : ℚ) : Nat × Nat :=
  ((⌊(im.width : ℚ) * zoom⌋).toNat, (⌊(im.height : ℚ) * zoom⌋).toNat)

/-- `Image::pixel`: nearest-neighbour sample at a terminal-space position,
zero pixel outside the image. -/
def Image.pixel (im : Image) (pos : Nat × Nat) (zoom : ℚ) : Pixel :=
  let x := (⌊(pos.1 : ℚ) / zoom⌋).toNat
  let y := (⌊(pos.2 : ℚ) / zoom⌋).toNat
  if im.width ≤ x ∨ im.height ≤ y then default
  else im.pixels.getD (y * im.width + x) default

/-- One terminal cell as emitted by `Image::draw`: either the blank
letterbox cell (`' '.on_black()`) or the half-block glyph `▀` with a
foreground and a background colour. -/
inductive Cell where
  | blank
  | half (fg bg : Pixel)
  deriving Repr, DecidableEq

/-- The cell `Image::draw` emits at column `x`, row `y`, given the pan
position `pos`, the centering `offset` and the zoom factor. -/
def Image.drawCell (im : Image) (pos offset : Nat × Nat) (zoom : ℚ)
    (x y : Nat) : Cell :=
  if x < offset.1 ∨ y < offset.2 then .blank
  else
    .half (im.pixel (x - offset.1 + pos.1, (y - offset.2) * 2 + pos.2) zoom)
      (im.pixel (x - offset.1 + pos.1, (y - offset.2) * 2 + pos.2 + 1) zoom)

/-- The view state owned by `ui_loop`: `zoom`, the pan position `pos`, and
the centering `offset`. -/
structure ViewState where
  zoom : ℚ
  pos : Nat × Nat
  offset : Nat × Nat
  deriving Repr, DecidableEq

/-- The fit-to-window zoom computation, shared verbatim by the
initialization of `ui_loop` (lines 20-32) and its space-key handler
(lines 72-81): start from `zoom = 1.0` and scale down by
`min(tw/iw, th/ih)` if the image exceeds the viewport. -/
def fitZoom (im : Image) (tw th : Nat) : ℚ :=
  let s := im.size 1
  if tw < s.1 ∨ th < s.2 then
    let z1 := (tw : ℚ) / (s.1 : ℚ)
    let z2 := (th : ℚ) / (s.2 : ℚ)
    if z1 < z2 then z1 else z2
  else 1

/-- Initialization of the view state in `ui_loop` (lines 20-42), given the
terminal width and the logical height (`rows * 2`). -/
def ui_init (im : Image) (tw th : Nat) : ViewState :=
  let zoom := fitZoom im tw th
  let s := im.size zoom
  let offx := if s.1 < tw then (tw - s.1) / 2 else 0
  let offy := if s.2 < th then (th - s.2) / 4 else 0
  { zoom := zoom, pos := (0, 0), offset := (offx, offy) }

/-- Session start: `ui_loop` reads the terminal size and doubles the row
count to get the logical height (lines 21-23). -/
def ui_start (im : Image) (cols rows : Nat) : ViewState :=
  ui_init im cols (rows * 2)

/-- The key-press transitions of `ui_loop` (lines 48-84).  The initial
terminal dimensions `tw th` are those captured before the loop: the
space-key handler uses them, not the current size.  `q` breaks the loop,
leaving the state unchanged. -/
def keyStep (im : Image) (tw th : Nat) (s : ViewState) (c : Char) : ViewState :=
  if c = 'q' then s
  else if c = '+' ∨ c = '=' then { s with zoom := s.zoom + 1 / 100 }
  else if c = '-' ∨ c = '_' then
    let z := s.zoom - 1 / 100
    { s with zoom := if z < 1 / 100 then 1 / 100 else z }
  else if c = 'h' ∨ c = 'a' then
    { s with pos := (if 0 < s.pos.1 then s.pos.1 - 1 else s.pos.1, s.pos.2) }
  else if c = 'l' ∨ c = 'd' then
    { s with pos := (s.pos.1 + 1, s.pos.2) }
  else if c = 'k' ∨ c = 'w' then
    { s with pos := (s.pos.1, s.pos.2 + 1) }
  else if c = 'j' ∨ c = 's' then
    { s with pos := (s.pos.1, if 0 < s.pos.2 then s.pos.2 - 1 else s.pos.2) }
  else if c = ' ' then
    { zoom := fitZoom im tw th, pos := (0, 0), offset := (0, 0) }
  else s

/-- A terminal event as seen by the loop: a pressed key, Escape, or
anything else (releases, repeats, non-key events), which is ignored. -/
inductive TermEvent where
  | key (c : Char)
  | esc
  | other

/-- Dispatch of one event (the `match event::read()?` at lines 48-86);
Escape, like `q`, only breaks the loop. -/
def eventStep (im : Image) (tw th : Nat) (s : ViewState) : TermEvent → ViewState
  | .key c => keyStep im tw th s c
  | .esc => s
  | .other => s

/-- The per-iteration recompute after the event (lines 88-100): re-read
the terminal size, recompute the scaled image size at the current zoom,
and on every axis where the image is smaller than the viewport reset the
pan and re-center. -/
def resizeStep (im : Image) (tw th : Nat) (s : ViewState) : ViewState :=
  let sz := im.size s.zoom
  let s1 := if sz.1 < tw
    then { s with pos := (0, s.pos.2), offset := ((tw - sz.1) / 2, s.offset.2) }
    else s
  if sz.2 < th
    then { s1 with pos := (s1.pos.1, 0), offset := (s1.offset.1, (th - sz.2) / 4) }
    else s1

/-- One full loop iteration: the event transition followed by the
recompute at the freshly read terminal size `(cols, rows)`. -/
def loopStep (im : Image) (tw0 th0 : Nat) (s : ViewState)
    (e : TermEvent × Nat × Nat) : ViewState :=
  resizeStep im e.2.1 (e.2.2 * 2) (eventStep im tw0 th0 s e.1)

/-- The state after initialization and a sequence of loop iterations, each
iteration carrying its event and the terminal size read at its end. -/
def runLoop (im : Image) (cols rows : Nat)
    (evs : List (TermEvent × Nat × Nat)) : ViewState :=
  evs.foldl (loopStep im cols (rows * 2)) (ui_start im cols rows)

/-- Modelled from the spec: round-toward-zero on a rational, the
`round_toward_zero` of the specification's floating-point rule. -/
def rtz (q : ℚ) : ℤ :=
  if q < 0 then ⌈q⌉ else ⌊q⌋

/-- Modelled from the spec: the floating-point channel rule
`out = clamp(round_toward_zero(c*255), 0, 255)`. -/
def spec_float_to_u8 (c : ℚ) : Nat :=
  (max 0 (min 255 (rtz (c * 255)))).toNat

/-- Modelled from the spec: the initialization of §4.4 with
`(iw, ih) = (round(width*zoom), round(height*zoom))` taken literally as
rounding to nearest, for comparison with `ui_init`. -/
def ui_init_round (im : Image) (tw th : Nat) : ViewState :=
  let iw := (round ((im.width : ℚ) * 1)).toNat
  let ih := (round ((im.height : ℚ) * 1)).toNat
  let zoom : ℚ :=
    if tw < iw ∨ th < ih then min ((tw : ℚ) / (iw : ℚ)) ((th : ℚ) / (ih : ℚ))
    else 1
  let iw := (round ((im.width : ℚ) * zoom)).toNat
  let ih := (round ((im.height : ℚ) * zoom)).toNat
  let offx := if iw < tw then (tw - iw) / 2 else 0
  let offy := if ih < th then (th - ih) / 4 else 0
  { zoom := zoom, pos := (0, 0), offset := (offx, offy) }

/-- The 2×2 canonical buffer of the spec's end-to-end rendering example. -/
def ex2x2 : Image :=
  { pixels := [⟨255, 0, 0⟩, ⟨0, 255, 0⟩, ⟨0, 0, 255⟩, ⟨255, 255, 255⟩],
    width := 2, height := 2 }

/-- A 7×3 canonical buffer on which truncation and rounding of
`width * zoom` disagree after fit-to-window. -/
def exIm76 : Image :=
  { pixels := List.replicate 21 default, width := 7, height := 3 }

/-- A 201×1 canonical buffer whose fit-to-window zoom on a 2-column
terminal is 2/201 < 1/100. -/
def exBig : Image :=
  { pixels := List.replicate 201 default, width := 201, height := 1 }

/-- The `as u8` cast in `apply_alpha` is lossless on genuine `u8` inputs. -/
theorem apply_alpha_eq {v a : Nat} (hv : v ≤ 255) (ha : a ≤ 255) :
    apply_alpha v a = v * a / 255 := by
  have h : v * a / 255 ≤ 255 := by
    calc v * a / 255 ≤ 255 * 255 / 255 := Nat.div_le_div_right (Nat.mul_le_mul hv ha)
    _ = 255 := by norm_num
  exact Nat.mod_eq_of_lt (by omega)

/-- The `as u16` cast in `apply_alpha16` is lossless on genuine `u16` inputs. -/
theorem apply_alpha16_eq {v a : Nat} (hv : v ≤ 65535) (ha : a ≤ 65535) :
    apply_alpha16 v a = v * a / 65535 := by
  have h : v * a / 65535 ≤ 65535 := by
    calc v * a / 65535 ≤ 65535 * 65535 / 65535 :=
      Nat.div_le_div_right (Nat.mul_le_mul hv ha)
    _ = 65535 := by norm_num
  exact Nat.mod_eq_of_lt (by omega)

/-- `apply_alpha16` keeps its result in the `u16` range. -/
theorem apply_alpha16_le {v a : Nat} (hv : v ≤ 65535) (ha : a ≤ 65535) :
    apply_alpha16 v a ≤ 65535 := by
  have h : v * a / 65535 ≤ 65535 := by
    calc v * a / 65535 ≤ 65535 * 65535 / 65535 :=
      Nat.div_le_div_right (Nat.mul_le_mul hv ha)
    _ = 65535 := by norm_num
  rw [apply_alpha16_eq hv ha]
  exact h

/-- The high-byte shift is floor division by 256 on `u16` inputs. -/
theorem u16_to_u8_eq {v : Nat} (hv : v ≤ 65535) : u16_to_u8 v = v / 256 := by
  have hs : v >>> 8 = v / 256 := by
    rw [Nat.shiftRight_eq_div_pow]
  unfold u16_to_u8
  rw [hs]
  exact Nat.mod_eq_of_lt (by omega)

/-- Claim C1: for single-channel 8-bit rasters with alpha and for RGBA
8-bit rasters, every output colour channel is `floor(c * a / 255)`
(compositing over black with integer truncation), and every pixel with
alpha 0 normalizes to `(0,0,0)` regardless of its colour values. -/
theorem claim_C1 :
    (∀ (im : Raster (Nat × Nat)) (i v a : Nat),
        im.pixels[i]? = some (v, a) → v ≤ 255 → a ≤ 255 →
        (Image.new_grayalpha8 im).pixels[i]? =
          some ⟨v * a / 255, v * a / 255, v * a / 255⟩)
  ∧ (∀ (im : Raster (Nat × Nat × Nat × Nat)) (i r g b a : Nat),
        im.pixels[i]? = some (r, g, b, a) →
        r ≤ 255 → g ≤ 255 → b ≤ 255 → a ≤ 255 →
        (Image.new_rgba8 im).pixels[i]? =
          some ⟨r * a / 255, g * a / 255, b * a / 255⟩)
  ∧ (∀ (im : Raster (Nat × Nat)) (i v : Nat),
        im.pixels[i]? = some (v, 0) →
        (Image.new_grayalpha8 im).pixels[i]? = some ⟨0, 0, 0⟩)
  ∧ (∀ (im : Raster (Nat × Nat × Nat × Nat)) (i r g b : Nat),
        im.pixels[i]? = some (r, g, b, 0) →
        (Image.new_rgba8 im).pixels[i]? = some ⟨0, 0, 0⟩) := by
  refine ⟨?_, ?_, ?_, ?_⟩
  · intro im i v a h hv ha
    simp [Image.new_grayalpha8, List.getElem?_map, h, apply_alpha_eq hv ha]
  · intro im i r g b a h hr hg hb ha
    simp [Image.new_rgba8, List.getElem?_map, h,
      apply_alpha_eq hr ha, apply_alpha_eq hg ha, apply_alpha_eq hb ha]
  · intro im i v h
    simp [Image.new_grayalpha8, List.getElem?_map, h, apply_alpha]
  · intro im i r g b h
    simp [Image.new_rgba8, List.getElem?_map, h, apply_alpha]

/-- Witness for C1 at a concrete raster: gray 10 with alpha 128 gives
`10 * 128 / 255 = 5` on every channel. -/
theorem claim_C1_witness :
    (Image.new_grayalpha8 ⟨1, 1, [(10, 128)]⟩).pixels[0]? =
      some ⟨10 * 128 / 255, 10 * 128 / 255, 10 * 128 / 255⟩ :=
  claim_C1.1 ⟨1, 1, [(10, 128)]⟩ 0 10 128 (by decide) (by decide) (by decide)

/-- Claim C2: 16-bit channels are alpha-composited (when alpha is present)
as `floor(v*a/65535)` in the 16-bit range, and every resulting 16-bit
value is downscaled by taking the high byte, `v16 >> 8 = floor(v16/256)`;
in particular `0xFFFF ↦ 0xFF`, `0x0100 ↦ 0x01`, `0x00FF ↦ 0x00`. -/
theorem claim_C2 :
    (∀ v : Nat, v ≤ 65535 → u16_to_u8 v = v / 256)
  ∧ u16_to_u8 0xFFFF = 0xFF
  ∧ u16_to_u8 0x0100 = 0x01
  ∧ u16_to_u8 0x00FF = 0x00
  ∧ (∀ (im : Raster Nat) (i v : Nat),
        im.pixels[i]? = some v → v ≤ 65535 →
        (Image.new_gray16 im).pixels[i]? = some ⟨v / 256, v / 256, v / 256⟩)
  ∧ (∀ (im : Raster (Nat × Nat)) (i v a : Nat),
        im.pixels[i]? = some (v, a) → v ≤ 65535 → a ≤ 65535 →
        (Image.new_grayalpha16 im).pixels[i]? =
          some ⟨v * a / 65535 / 256, v * a / 65535 / 256, v * a / 65535 / 256⟩)
  ∧ (∀ (im : Raster (Nat × Nat × Nat)) (i r g b : Nat),
        im.pixels[i]? = some (r, g, b) → r ≤ 65535 → g ≤ 65535 → b ≤ 65535 →
        (Image.new_rgb16 im).pixels[i]? = some ⟨r / 256, g / 256, b / 256⟩)
  ∧ (∀ (im : Raster (Nat × Nat × Nat × Nat)) (i r g b a : Nat),
        im.pixels[i]? = some (r, g, b, a) →
        r ≤ 65535 → g ≤ 65535 → b ≤ 65535 → a ≤ 65535 →
        (Image.new_rgba16 im).pixels[i]? =
          some ⟨r * a / 65535 / 256, g * a / 65535 / 256, b * a / 65535 / 256⟩) := by
  refine ⟨fun v hv => u16_to_u8_eq hv, by decide, by decide, by decide, ?_, ?_, ?_, ?_⟩
  · intro im i v h hv
    simp [Image.new_gray16, List.getElem?_map, h, u16_to_u8_eq hv]
  · intro im i v a h hv ha
    have hva : apply_alpha16 v a = v * a / 65535 := apply_alpha16_eq hv ha
    have hle : v * a / 65535 ≤ 65535 := hva ▸ apply_alpha16_le hv ha
    simp [Image.new_grayalpha16, List.getElem?_map, h, hva, u16_to_u8_eq hle]
  · intro im i r g b h hr hg hb
    simp [Image.new_rgb16, List.getElem?_map, h,
      u16_to_u8_eq hr, u16_to_u8_eq hg, u16_to_u8_eq hb]
  · intro im i r g b a h hr hg hb ha
    have hra : apply_alpha16 r a = r * a / 65535 := apply_alpha16_eq hr ha
    have hga : apply_alpha16 g a = g * a / 65535 := apply_alpha16_eq hg ha
    have hba : apply_alpha16 b a = b * a / 65535 := apply_alpha16_eq hb ha
    have hrle : r * a / 65535 ≤ 65535 := hra ▸ apply_alpha16_le hr ha
    have hgle : g * a / 65535 ≤ 65535 := hga ▸ apply_alpha16_le hg ha
    have hble : b * a / 65535 ≤ 65535 := hba ▸ apply_alpha16_le hb ha
    simp [Image.new_rgba16, List.getElem?_map, h, hra, hga, hba,
      u16_to_u8_eq hrle, u16_to_u8_eq hgle, u16_to_u8_eq hble]

/-- Witness for C2: the 16-bit value `0x1234` has high byte `0x12`. -/
theorem claim_C2_witness : u16_to_u8 0x1234 = 0x1234 / 256 :=
  claim_C2.1 0x1234 (by decide)

/-- On finite values the source conversion agrees with the spec formula
`clamp(round_toward_zero(c*255), 0, 255)`. -/
theorem f32_to_u8_val (q : ℚ) : f32_to_u8 (F32.val q) = spec_float_to_u8 q := by
  have hrtz_neg : q * 255 < 0 → rtz (q * 255) = ⌈q * 255⌉ := fun h => if_pos h
  have hrtz_pos : ¬q * 255 < 0 → rtz (q * 255) = ⌊q * 255⌋ := fun h => if_neg h
  show (if (F32.val (q * 255)).lt (.val 0) then (0 : Nat)
    else if (F32.val 255).lt (.val (q * 255)) then 255
    else (F32.val (q * 255)).toU8) = spec_float_to_u8 q
  simp only [F32.lt, F32.toU8, decide_eq_true_eq]
  unfold spec_float_to_u8
  by_cases h1 : q * 255 < 0
  · rw [if_pos h1, hrtz_neg h1]
    have hc : ⌈q * 255⌉ ≤ 0 := Int.ceil_le.mpr (by exact_mod_cast h1.le)
    rw [min_eq_right (by omega : ⌈q * 255⌉ ≤ (255 : ℤ)), max_eq_left hc]
    rfl
  · by_cases h2 : 255 < q * 255
    · rw [if_neg h1, if_pos h2, hrtz_pos h1]
      have hf : (255 : ℤ) ≤ ⌊q * 255⌋ := Int.le_floor.mpr (by exact_mod_cast h2.le)
      rw [min_eq_left hf, max_eq_right (by omega : (0 : ℤ) ≤ 255)]
      rfl
    · rw [if_neg h1, if_neg h2, if_neg h1, if_neg h2, hrtz_pos h1]
      have hf0 : (0 : ℤ) ≤ ⌊q * 255⌋ := Int.floor_nonneg.mpr (not_lt.mp h1)
      have hf255 : ⌊q * 255⌋ ≤ 255 := by
        have h := Int.floor_le_floor (α := ℚ) (not_lt.mp h2)
        simpa using h
      rw [min_eq_right hf255, max_eq_right hf0]

/-- Claim C3: every floating-point channel converts as
`clamp(round_toward_zero(c*255), 0, 255)`, and for four-channel
floating-point rasters each colour channel is multiplied by the alpha
channel before the scale/clamp step. -/
theorem claim_C3 :
    (∀ q : ℚ, f32_to_u8 (F32.val q) = spec_float_to_u8 q)
  ∧ (∀ (im : Raster (F32 × F32 × F32)) (i : Nat) (qr qg qb : ℚ),
        im.pixels[i]? = some (.val qr, .val qg, .val qb) →
        (Image.new_rgb32f im).pixels[i]? =
          some ⟨spec_float_to_u8 qr, spec_float_to_u8 qg, spec_float_to_u8 qb⟩)
  ∧ (∀ (im : Raster (F32 × F32 × F32 × F32)) (i : Nat) (qr qg qb qa : ℚ),
        im.pixels[i]? = some (.val qr, .val qg, .val qb, .val qa) →
        (Image.new_rgba32f im).pixels[i]? =
          some ⟨spec_float_to_u8 (qr * qa), spec_float_to_u8 (qg * qa),
            spec_float_to_u8 (qb * qa)⟩) := by
  refine ⟨f32_to_u8_val, ?_, ?_⟩
  · intro im i qr qg qb h
    simp [Image.new_rgb32f, List.getElem?_map, h, f32_to_u8_val]
  · intro im i qr qg qb qa h
    have hm : ∀ x y : ℚ, (F32.val x).mul (F32.val y) = F32.val (x * y) :=
      fun x y => rfl
    simp [Image.new_rgba32f, List.getElem?_map, h, hm, f32_to_u8_val]

/-- Witness for C3 at a concrete RGBA float pixel `(1/2, 2, -1, 1)`:
the channels convert to `clamp(trunc(…*255))` of `1/2`, `2`, `-1`. -/
theorem claim_C3_witness :
    (Image.new_rgba32f ⟨1, 1, [(.val (1/2), .val 2, .val (-1), .val 1)]⟩).pixels[0]? =
      some ⟨spec_float_to_u8 (1/2 * 1), spec_float_to_u8 (2 * 1),
        spec_float_to_u8 (-1 * 1)⟩ :=
  claim_C3.2.2 ⟨1, 1, [(.val (1/2), .val 2, .val (-1), .val 1)]⟩ 0
    (1/2) 2 (-1) 1 rfl

/-- Claim C10: the float-to-byte conversion is total over the whole `F32`
domain: NaN converts to 0 (including NaN arising from multiplying any
channel by a NaN alpha), negative infinity to 0, positive infinity to
255, and every conversion result is a valid 8-bit value. -/
theorem claim_C10 :
    f32_to_u8 .nan = 0
  ∧ f32_to_u8 .negInf = 0
  ∧ f32_to_u8 .posInf = 255
  ∧ (∀ c : F32, f32_to_u8 (c.mul .nan) = 0)
  ∧ (∀ v : F32, f32_to_u8 v ≤ 255) := by
  refine ⟨rfl, ?_, ?_, ?_, ?_⟩
  · show (if (F32.negInf.mul (.val 255)).lt (.val 0) then (0 : Nat)
      else if (F32.val 255).lt (F32.negInf.mul (.val 255)) then 255
      else (F32.negInf.mul (.val 255)).toU8) = 0
    norm_num [F32.mul, F32.lt]
  · show (if (F32.posInf.mul (.val 255)).lt (.val 0) then (0 : Nat)
      else if (F32.val 255).lt (F32.posInf.mul (.val 255)) then 255
      else (F32.posInf.mul (.val 255)).toU8) = 255
    norm_num [F32.mul, F32.lt]
  · intro c
    have h : c.mul .nan = .nan := by cases c <;> rfl
    rw [h]
    rfl
  · intro v
    cases v with
    | nan => exact Nat.zero_le 255
    | posInf =>
      show (if (F32.posInf.mul (.val 255)).lt (.val 0) then (0 : Nat)
        else if (F32.val 255).lt (F32.posInf.mul (.val 255)) then 255
        else (F32.posInf.mul (.val 255)).toU8) ≤ 255
      norm_num [F32.mul, F32.lt]
    | negInf =>
      show (if (F32.negInf.mul (.val 255)).lt (.val 0) then (0 : Nat)
        else if (F32.val 255).lt (F32.negInf.mul (.val 255)) then 255
        else (F32.negInf.mul (.val 255)).toU8) ≤ 255
      norm_num [F32.mul, F32.lt]
    | val q =>
      rw [f32_to_u8_val]
      unfold spec_float_to_u8
      have : max 0 (min 255 (rtz (q * 255))) ≤ 255 :=
        max_le (by omega) (min_le_left _ _)
      omega

/-- Claim C4: normalization always produces a buffer with
`len(pixels) = width * height`, and sampling maps a position to
`(floor(x/zoom), floor(y/zoom))`, returns the zero pixel when that source
coordinate is outside the image, and otherwise returns exactly the stored
pixel at `srcY * width + srcX`, an index that is always in bounds. -/
theorem claim_C4 :
    (∀ d : DynamicImage, d.wf →
      (Image.new d).pixels.length = (Image.new d).width * (Image.new d).height)
  ∧ (∀ (im : Image), im.pixels.length = im.width * im.height →
      ∀ (px py : Nat) (zoom : ℚ), 0 < zoom →
      ((im.width ≤ (⌊(px : ℚ) / zoom⌋).toNat ∨
          im.height ≤ (⌊(py : ℚ) / zoom⌋).toNat →
        im.pixel (px, py) zoom = ⟨0, 0, 0⟩)
      ∧ (∀ (hx : (⌊(px : ℚ) / zoom⌋).toNat < im.width)
            (hy : (⌊(py : ℚ) / zoom⌋).toNat < im.height),
          (⌊(py : ℚ) / zoom⌋).toNat * im.width + (⌊(px : ℚ) / zoom⌋).toNat <
            im.pixels.length
        ∧ im.pixel (px, py) zoom =
            im.pixels.getD
              ((⌊(py : ℚ) / zoom⌋).toNat * im.width + (⌊(px : ℚ) / zoom⌋).toNat)
              ⟨0, 0, 0⟩))) := by
  constructor
  · intro d hwf
    cases d <;>
      simpa [Image.new, Image.new_gray8, Image.new_grayalpha8, Image.new_rgb8,
        Image.new_rgba8, Image.new_gray16, Image.new_grayalpha16,
        Image.new_rgb16, Image.new_rgba16, Image.new_rgb32f, Image.new_rgba32f,
        DynamicImage.wf, Raster.wf] using hwf
  · intro im hlen px py zoom _
    constructor
    · intro h
      unfold Image.pixel
      dsimp only
      rw [if_pos h]
      rfl
    · intro hx hy
      have hb : (⌊(py : ℚ) / zoom⌋).toNat * im.width + (⌊(px : ℚ) / zoom⌋).toNat <
          im.pixels.length := by
        rw [hlen]
        calc (⌊(py : ℚ) / zoom⌋).toNat * im.width + (⌊(px : ℚ) / zoom⌋).toNat
            < ((⌊(py : ℚ) / zoom⌋).toNat + 1) * im.width := by
              rw [Nat.succ_mul]
              omega
        _ ≤ im.height * im.width := Nat.mul_le_mul_right _ hy
        _ = im.width * im.height := Nat.mul_comm _ _
      refine ⟨hb, ?_⟩
      unfold Image.pixel
      dsimp only
      rw [if_neg (by omega)]
      rfl

/-- Witness for C4: a concrete 1×1 RGBA raster satisfies the length
invariant, and sampling `ex2x2` at `(1,1)` with zoom 1 returns the stored
pixel at index `1*2+1`. -/
theorem claim_C4_witness :
    (Image.new (.ImageRgba8 ⟨1, 1, [(8, 16, 32, 255)]⟩)).pixels.length =
      (Image.new (.ImageRgba8 ⟨1, 1, [(8, 16, 32, 255)]⟩)).width *
        (Image.new (.ImageRgba8 ⟨1, 1, [(8, 16, 32, 255)]⟩)).height
  ∧ ex2x2.pixel (1, 1) 1 =
      ex2x2.pixels.getD
        ((⌊((1 : Nat) : ℚ) / 1⌋).toNat * ex2x2.width + (⌊((1 : Nat) : ℚ) / 1⌋).toNat)
        ⟨0, 0, 0⟩ :=
  ⟨claim_C4.1 _ rfl,
   ((claim_C4.2 ex2x2 (by decide) 1 1 1 (by norm_num)).2
      (by norm_num [ex2x2]) (by norm_num [ex2x2])).2⟩

/-- Claim C5: a cell left of or above the offset renders blank; any other
cell renders a half-block whose foreground is the sample at
`((x-offset.x)+pan.x, (y-offset.y)*2+pan.y)` and whose background is the
sample one logical row below; on the 2×2 example buffer at zoom 1 this
yields fg `(255,0,0)` / bg `(0,0,255)` at cell `(0,0)` and fg `(0,255,0)`
/ bg `(255,255,255)` at cell `(1,0)`. -/
theorem claim_C5 :
    (∀ (im : Image) (pos offset : Nat × Nat) (zoom : ℚ) (x y : Nat),
        (x < offset.1 ∨ y < offset.2 → im.drawCell pos offset zoom x y = .blank)
      ∧ (offset.1 ≤ x → offset.2 ≤ y →
          im.drawCell pos offset zoom x y =
            .half (im.pixel (x - offset.1 + pos.1, (y - offset.2) * 2 + pos.2) zoom)
              (im.pixel (x - offset.1 + pos.1, (y - offset.2) * 2 + pos.2 + 1) zoom)))
  ∧ ex2x2.drawCell (0, 0) (0, 0) 1 0 0 = .half ⟨255, 0, 0⟩ ⟨0, 0, 255⟩
  ∧ ex2x2.drawCell (0, 0) (0, 0) 1 1 0 = .half ⟨0, 255, 0⟩ ⟨255, 255, 255⟩ := by
  refine ⟨?_, ?_, ?_⟩
  · intro im pos offset zoom x y
    constructor
    · intro h
      unfold Image.drawCell
      rw [if_pos h]
    · intro hx hy
      unfold Image.drawCell
      rw [if_neg (by omega)]
  · norm_num [Image.drawCell, Image.pixel, ex2x2, List.getD]
  · norm_num [Image.drawCell, Image.pixel, ex2x2, List.getD]

/-- Witness for C5: the blank-cell case at a concrete input, via the
general statement. -/
theorem claim_C5_witness : ex2x2.drawCell (0, 0) (1, 1) 1 0 0 = .blank :=
  (claim_C5.1 ex2x2 (0, 0) (1, 1) 1 0 0).1 (Or.inl (by decide))

/-- At zoom 1 the scaled size is the image size. -/
theorem Image.size_one (im : Image) : im.size 1 = (im.width, im.height) := by
  simp [Image.size]

/-- The per-frame recompute never changes the zoom factor. -/
theorem resizeStep_zoom (im : Image) (tw th : Nat) (s : ViewState) :
    (resizeStep im tw th s).zoom = s.zoom := by
  unfold resizeStep
  dsimp only
  split <;> split <;> rfl

/-- Claim C8: every loop iteration applies the recompute at the freshly
read terminal size after the event transition; the recompute leaves zoom
unchanged, and on each axis where the scaled image is smaller than the
viewport it zeroes the pan component and re-centers the offset, leaving
both untouched otherwise. -/
theorem claim_C8 :
    (∀ (im : Image) (tw0 th0 : Nat) (s : ViewState) (e : TermEvent)
        (cols rows : Nat),
        loopStep im tw0 th0 s (e, cols, rows) =
          resizeStep im cols (rows * 2) (eventStep im tw0 th0 s e))
  ∧ (∀ (im : Image) (tw th : Nat) (s : ViewState),
        (resizeStep im tw th s).zoom = s.zoom
      ∧ (resizeStep im tw th s).pos.1 =
          (if (im.size s.zoom).1 < tw then 0 else s.pos.1)
      ∧ (resizeStep im tw th s).offset.1 =
          (if (im.size s.zoom).1 < tw then (tw - (im.size s.zoom).1) / 2
           else s.offset.1)
      ∧ (resizeStep im tw th s).pos.2 =
          (if (im.size s.zoom).2 < th then 0 else s.pos.2)
      ∧ (resizeStep im tw th s).offset.2 =
          (if (im.size s.zoom).2 < th then (th - (im.size s.zoom).2) / 4
           else s.offset.2)) := by
  refine ⟨fun im tw0 th0 s e cols rows => rfl, fun im tw th s => ?_⟩
  by_cases h1 : (im.size s.zoom).1 < tw <;> by_cases h2 : (im.size s.zoom).2 < th <;>
    simp [resizeStep, h1, h2]

/-- Claim C9: `h`/`a` decrement `pan.x` only when it is positive (no-op at
zero), `l`/`d` increment it unconditionally; `j`/`s` decrement `pan.y`
only when positive, `k`/`w` increment it unconditionally. -/
theorem claim_C9 :
    ∀ (im : Image) (tw th : Nat) (s : ViewState),
      (keyStep im tw th s 'h').pos =
        (if 0 < s.pos.1 then s.pos.1 - 1 else s.pos.1, s.pos.2)
    ∧ (keyStep im tw th s 'a').pos =
        (if 0 < s.pos.1 then s.pos.1 - 1 else s.pos.1, s.pos.2)
    ∧ (keyStep im tw th s 'l').pos = (s.pos.1 + 1, s.pos.2)
    ∧ (keyStep im tw th s 'd').pos = (s.pos.1 + 1, s.pos.2)
    ∧ (keyStep im tw th s 'j').pos =
        (s.pos.1, if 0 < s.pos.2 then s.pos.2 - 1 else s.pos.2)
    ∧ (keyStep im tw th s 's').pos =
        (s.pos.1, if 0 < s.pos.2 then s.pos.2 - 1 else s.pos.2)
    ∧ (keyStep im tw th s 'k').pos = (s.pos.1, s.pos.2 + 1)
    ∧ (keyStep im tw th s 'w').pos = (s.pos.1, s.pos.2 + 1) :=
  fun im tw th s => ⟨rfl, rfl, rfl, rfl, rfl, rfl, rfl, rfl⟩

/-- The source's `if z1 < z2 { z1 } else { z2 }` is the minimum. -/
theorem if_lt_min (a b : ℚ) : (if a < b then a else b) = min a b := by
  split
  · next h => exact (min_eq_left h.le).symm
  · next h => exact (min_eq_right (le_of_not_lt h)).symm

/-- The fit-to-window zoom in closed form. -/
theorem fitZoom_eq (im : Image) (tw th : Nat) :
    fitZoom im tw th =
      (if tw < im.width ∨ th < im.height
       then min ((tw : ℚ) / (im.width : ℚ)) ((th : ℚ) / (im.height : ℚ))
       else 1) := by
  unfold fitZoom
  rw [Image.size_one]
  dsimp only
  by_cases h : tw < im.width ∨ th < im.height
  · rw [if_pos h, if_pos h]
    exact if_lt_min _ _
  · rw [if_neg h, if_neg h]

/-- Claim C6 (amended): initialization sets `pan = (0,0)`, keeps
`zoom = 1` when the image fits and otherwise sets
`zoom = min(W/width, H/height)` with `H = rows*2`; the scaled size used
for centering is `(iw, ih) = (floor(width*zoom), floor(height*zoom))` —
truncation as in `Image::size`, not rounding — and
`offset.x = (W-iw)/2` when `iw < W` else 0, `offset.y = (H-ih)/4` when
`ih < H` else 0. -/
theorem claim_C6 :
    ∀ (im : Image) (cols rows : Nat),
      (ui_start im cols rows).pos = (0, 0)
    ∧ (ui_start im cols rows).zoom =
        (if cols < im.width ∨ rows * 2 < im.height
         then min ((cols : ℚ) / (im.width : ℚ))
           (((rows * 2 : Nat) : ℚ) / (im.height : ℚ))
         else 1)
    ∧ (ui_start im cols rows).offset.1 =
        (if (⌊(im.width : ℚ) * (ui_start im cols rows).zoom⌋).toNat < cols
         then (cols - (⌊(im.width : ℚ) * (ui_start im cols rows).zoom⌋).toNat) / 2
         else 0)
    ∧ (ui_start im cols rows).offset.2 =
        (if (⌊(im.height : ℚ) * (ui_start im cols rows).zoom⌋).toNat < rows * 2
         then (rows * 2 - (⌊(im.height : ℚ) * (ui_start im cols rows).zoom⌋).toNat) / 4
         else 0) := by
  intro im cols rows
  exact ⟨rfl, fitZoom_eq im cols (rows * 2), rfl, rfl⟩

/-- Counterexample for C6 as frozen: on the 7×3 buffer in a 6-column,
1-row terminal the code computes `iw = floor(7 * 2/3) = 4` and centers
with `offset.x = (6-4)/2 = 1`, while the claim's
`iw = round(7 * 2/3) = 5` yields `offset.x = (6-5)/2 = 0`. -/
theorem claim_C6_counterexample :
    (ui_start exIm76 6 1).offset ≠ (ui_init_round exIm76 6 2).offset := by
  have hz : fitZoom exIm76 6 2 = 2 / 3 := by
    unfold fitZoom
    rw [Image.size_one]
    norm_num [exIm76]
  have hs : exIm76.size (2 / 3) = (4, 2) := by
    show ((⌊((7 : Nat) : ℚ) * (2 / 3)⌋).toNat, (⌊((3 : Nat) : ℚ) * (2 / 3)⌋).toNat)
      = (4, 2)
    have e1 : ((7 : Nat) : ℚ) * (2 / 3) = 14 / 3 := by norm_num
    have e2 : ((3 : Nat) : ℚ) * (2 / 3) = 2 := by norm_num
    have f1 : ⌊(14 : ℚ) / 3⌋ = 4 := by norm_num [Int.floor_eq_iff]
    have f2 : ⌊(2 : ℚ)⌋ = 2 := by norm_num
    rw [e1, e2, f1, f2]
    decide
  have h1 : (ui_start exIm76 6 1).offset =
      (if (exIm76.size (fitZoom exIm76 6 2)).1 < 6
       then (6 - (exIm76.size (fitZoom exIm76 6 2)).1) / 2 else 0,
       if (exIm76.size (fitZoom exIm76 6 2)).2 < 2
       then (2 - (exIm76.size (fitZoom exIm76 6 2)).2) / 4 else 0) := rfl
  rw [hz, hs] at h1
  norm_num at h1
  -- code side: offset = (1, 0)
  have hr : (ui_init_round exIm76 6 2).offset = (0, 0) := by
    have hw : (round (((7 : Nat) : ℚ) * 1)).toNat = 7 := by
      norm_num [round_natCast]
      decide
    have hh : (round (((3 : Nat) : ℚ) * 1)).toNat = 3 := by
      norm_num [round_natCast]
      decide
    have hrw : (round (((7 : Nat) : ℚ) * (2 / 3))).toNat = 5 := by
      have e : ((7 : Nat) : ℚ) * (2 / 3) = 14 / 3 := by norm_num
      rw [e, round_eq]
      norm_num [Int.floor_eq_iff]
      decide
    have hrh : (round (((3 : Nat) : ℚ) * (2 / 3))).toNat = 2 := by
      have e : ((3 : Nat) : ℚ) * (2 / 3) = 2 := by norm_num
      rw [e, round_eq]
      norm_num [Int.floor_eq_iff]
      decide
    show (if (round ((exIm76.width : ℚ) *
          (if 6 < (round ((exIm76.width : ℚ) * 1)).toNat ∨
              2 < (round ((exIm76.height : ℚ) * 1)).toNat
           then min ((6 : ℚ) / ((round ((exIm76.width : ℚ) * 1)).toNat : ℚ))
             ((2 : ℚ) / ((round ((exIm76.height : ℚ) * 1)).toNat : ℚ))
           else 1))).toNat < 6
      then (6 - (round ((exIm76.width : ℚ) *
          (if 6 < (round ((exIm76.width : ℚ) * 1)).toNat ∨
              2 < (round ((exIm76.height : ℚ) * 1)).toNat
           then min ((6 : ℚ) / ((round ((exIm76.width : ℚ) * 1)).toNat : ℚ))
             ((2 : ℚ) / ((round ((exIm76.height : ℚ) * 1)).toNat : ℚ))
           else 1))).toNat) / 2
      else 0,
      if (round ((exIm76.height : ℚ) *
          (if 6 < (round ((exIm76.width : ℚ) * 1)).toNat ∨
              2 < (round ((exIm76.height : ℚ) * 1)).toNat
           then min ((6 : ℚ) / ((round ((exIm76.width : ℚ) * 1)).toNat : ℚ))
             ((2 : ℚ) / ((round ((exIm76.height : ℚ) * 1)).toNat : ℚ))
           else 1))).toNat < 2
      then (2 - (round ((exIm76.height : ℚ) *
          (if 6 < (round ((exIm76.width : ℚ) * 1)).toNat ∨
              2 < (round ((exIm76.height : ℚ) * 1)).toNat
           then min ((6 : ℚ) / ((round ((exIm76.width : ℚ) * 1)).toNat : ℚ))
             ((2 : ℚ) / ((round ((exIm76.height : ℚ) * 1)).toNat : ℚ))
           else 1))).toNat) / 4
      else 0) = ((0 : Nat), (0 : Nat))
    have hwv : (exIm76.width : ℚ) = ((7 : Nat) : ℚ) := rfl
    have hhv : (exIm76.height : ℚ) = ((3 : Nat) : ℚ) := rfl
    rw [hwv, hhv, hw, hh]
    have hif : (if 6 < 7 ∨ 2 < 3
        then min ((6 : ℚ) / ((7 : Nat) : ℚ)) ((2 : ℚ) / ((3 : Nat) : ℚ)) else 1)
        = 2 / 3 := by
      rw [if_pos (by norm_num), min_eq_right (by norm_num)]
      norm_num
    rw [hif, hrw, hrh]
    norm_num
  rw [h1, hr]
  decide

/-- Any lower bound below both the clamp floor `1/100` and the
fit-to-window zoom is preserved by every key transition. -/
theorem keyStep_zoom_ge (im : Image) (tw th : Nat) (s : ViewState) (c : Char)
    (z : ℚ) (hz : z ≤ s.zoom) (hfit : z ≤ fitZoom im tw th)
    (hmin : z ≤ 1 / 100) : z ≤ (keyStep im tw th s c).zoom := by
  unfold keyStep
  split
  · exact hz
  split
  · exact le_trans hz (by linarith)
  split
  · show z ≤ (if s.zoom - 1 / 100 < 1 / 100 then 1 / 100 else s.zoom - 1 / 100)
    split
    · exact hmin
    · next h => exact le_trans hmin (le_of_not_lt h)
  split
  · exact hz
  split
  · exact hz
  split
  · exact hz
  split
  · exact hz
  split
  · exact hfit
  exact hz

/-- The invariant `min(1/100, fitZoom) ≤ zoom` is preserved by every loop
iteration, for any event and any terminal size read during it. -/
theorem foldl_loopStep_zoom (im : Image) (cols rows : Nat)
    (evs : List (TermEvent × Nat × Nat)) (s : ViewState)
    (h : min ((1 : ℚ) / 100) (fitZoom im cols (rows * 2)) ≤ s.zoom) :
    min ((1 : ℚ) / 100) (fitZoom im cols (rows * 2)) ≤
      (evs.foldl (loopStep im cols (rows * 2)) s).zoom := by
  induction evs generalizing s with
  | nil => exact h
  | cons e rest ih =>
    apply ih
    show min ((1 : ℚ) / 100) (fitZoom im cols (rows * 2)) ≤
      (loopStep im cols (rows * 2) s e).zoom
    rw [show (loopStep im cols (rows * 2) s e).zoom =
        (eventStep im cols (rows * 2) s e.1).zoom from
      resizeStep_zoom im e.2.1 (e.2.2 * 2) _]
    cases he : e.1 with
    | key c =>
      exact keyStep_zoom_ge im cols (rows * 2) s c _ h (min_le_right _ _)
        (min_le_left _ _)
    | esc => exact h
    | other => exact h

/-- Claim C7 (amended): every zoom-decrement event (`-`/`_`) leaves
`zoom ≥ 0.01`, and in every reachable state `zoom ≥ min(0.01, z₀)` where
`z₀` is the initialization (fit-to-window) zoom; the unconditional
invariant `zoom ≥ 0.01` fails because fit-to-window initialization can
itself set `zoom` below `0.01`. -/
theorem claim_C7 :
    (∀ (im : Image) (tw th : Nat) (s : ViewState) (c : Char),
        c = '-' ∨ c = '_' → (1 : ℚ) / 100 ≤ (keyStep im tw th s c).zoom)
  ∧ (∀ (im : Image) (cols rows : Nat) (evs : List (TermEvent × Nat × Nat)),
        min ((1 : ℚ) / 100) ((ui_start im cols rows).zoom) ≤
          (runLoop im cols rows evs).zoom) := by
  constructor
  · intro im tw th s c hc
    have hstep : (keyStep im tw th s c).zoom =
        (if s.zoom - 1 / 100 < 1 / 100 then 1 / 100 else s.zoom - 1 / 100) := by
      rcases hc with h | h <;> subst h <;> rfl
    rw [hstep]
    split
    · exact le_refl _
    · next h => exact le_of_not_lt h
  · intro im cols rows evs
    have hz0 : (ui_start im cols rows).zoom = fitZoom im cols (rows * 2) := rfl
    rw [hz0]
    exact foldl_loopStep_zoom im cols rows evs _ (by rw [hz0]; exact min_le_right _ _)

/-- Witness for C7: a decrement from zoom 1 at a concrete state clamps to
at least 1/100. -/
theorem claim_C7_witness :
    (1 : ℚ) / 100 ≤ (keyStep ex2x2 2 2 ⟨1, (0, 0), (0, 0)⟩ '-').zoom :=
  claim_C7.1 ex2x2 2 2 ⟨1, (0, 0), (0, 0)⟩ '-' (Or.inl rfl)

/-- Counterexample for C7 as frozen: the 201×1 buffer on a 2-column
terminal initializes with fit-to-window zoom `2/201 < 1/100`, a reachable
state violating the claimed invariant `zoom ≥ 0.01`. -/
theorem claim_C7_counterexample : (ui_start exBig 2 100).zoom < 1 / 100 := by
  have hz : (ui_start exBig 2 100).zoom = fitZoom exBig 2 200 := rfl
  have hfit : fitZoom exBig 2 200 = 2 / 201 := by
    unfold fitZoom
    rw [Image.size_one]
    norm_num [exBig]
  rw [hz, hfit]
  norm_num
